import Mathlib

/-!
Verification of the concurrency-limited admission controller
(`internal/controller/limiter`, package `limiter`).

The Go implementation keeps its capacity state in a buffered channel
`tokenBucket chan struct{}` of buffer size `MaxInFlight`; the number of
buffered values is the available-token count.  We embed the limiter as a
record carrying the fixed capacity and the current available count, and each
operation of the Go code as a pure state transformer.  The `select` race in
`Handle` is embedded by passing in which of the three branches won, together
with an enabledness condition mirroring channel/select semantics (a branch
can only win when it is ready: a channel receive succeeds only on a
non-empty channel).
-/

namespace Limiter

/-- The errors a `Handle` call can return: `model.ErrStaleJob`, a context
cancellation cause (`context.Cause(ctx)`), or an arbitrary error value
produced by the downstream handler.  Cancellation causes and downstream
errors are kept abstract as tagged naturals. -/
inductive GoError where
  | errStaleJob : GoError
  | ctxCause : Nat → GoError
  | handlerError : Nat → GoError
deriving DecidableEq, Repr

/-- The limiter state: `maxInFlight` is the fixed capacity (buffer size of
`tokenBucket`), `available` is `len(l.tokenBucket)`, the number of tokens
currently in the bucket. -/
structure MaxInFlight where
  maxInFlight : Nat
  available : Nat
deriving DecidableEq, Repr

/-- A `model.Job`: its uuid and whether its staleness channel `StaleCh` has
fired (a one-shot signal). -/
structure Job where
  uuid : String
  staleFired : Bool
deriving DecidableEq, Repr

/-- A Go context, as `Handle` observes it: whether `ctx.Done()` is closed and
the value of `context.Cause(ctx)` (kept abstract as a natural). -/
structure Ctx where
  done : Bool
  cause : Nat
deriving DecidableEq, Repr

/-- Modelled from the spec: `model.JobFinished` (package
`internal/controller/model`, not part of the sources at hand) classifies a
cluster job resource as finished or not-finished, "a finished/not-finished
state derivable from the resource's status".  We carry that binary
classification as a field of the resource. -/
structure BatchJob where
  name : String
  finished : Bool
deriving DecidableEq, Repr

/-- Modelled from the spec: `model.JobFinished(job)` returns the binary
finished classification of the resource. -/
def JobFinished (j : BatchJob) : Bool :=
  j.finished

/-- `New(logger, scheduler, maxInFlight)`: panics when `maxInFlight <= 0`,
otherwise builds the limiter with the bucket filled with `maxInFlight`
tokens.  The Go panic is embedded as `Except.error` carrying the panic
message. -/
def New (maxInFlight : Int) : Except String MaxInFlight :=
  if maxInFlight ≤ 0 then
    Except.error ("maxInFlight <= 0 (got " ++ toString maxInFlight ++ ")")
  else
    Except.ok { maxInFlight := maxInFlight.toNat, available := maxInFlight.toNat }

/-- `tryTakeToken`: `select` with a receive from `tokenBucket` and a
`default` branch — takes a token if one is available, otherwise does
nothing; never blocks. -/
def tryTakeToken (l : MaxInFlight) : MaxInFlight :=
  if 0 < l.available then { l with available := l.available - 1 } else l

/-- `tryReturnToken`: `select` with a send to `tokenBucket` and a `default`
branch — returns a token if the bucket is not full (a send on a buffered
channel succeeds exactly when `len < cap`), otherwise does nothing; never
blocks. -/
def tryReturnToken (l : MaxInFlight) : MaxInFlight :=
  if l.available < l.maxInFlight then { l with available := l.available + 1 } else l

/-- Which branch of the three-way `select` in `Handle` won the race. -/
inductive RaceWinner where
  | ctxDone : RaceWinner
  | staleCh : RaceWinner
  | tokenBucket : RaceWinner
deriving DecidableEq, Repr

/-- Select semantics: a branch can only win the race when it is ready.
`<-ctx.Done()` is ready when the context is done, `<-job.StaleCh` when the
staleness signal has fired, and `<-l.tokenBucket` when the bucket is
non-empty. -/
def raceEnabled (ctx : Ctx) (job : Job) (l : MaxInFlight) : RaceWinner → Bool
  | RaceWinner.ctxDone => ctx.done
  | RaceWinner.staleCh => job.staleFired
  | RaceWinner.tokenBucket => decide (0 < l.available)

/-- Outcome of a `Handle` call: the limiter state after the call, the
returned error (`none` for a nil error), and whether the job was forwarded
to the next handler (`l.handler.Handle` was invoked). -/
structure HandleResult where
  state : MaxInFlight
  result : Option GoError
  forwarded : Bool
deriving DecidableEq, Repr

/-- `Handle(ctx, job)`: races context cancellation, job staleness and token
acquisition.  `winner` is the branch that won the select; `handlerRes` is
the error the next handler returns when invoked (`none` for nil).  On
cancellation it returns `context.Cause(ctx)`; on staleness it returns
`model.ErrStaleJob`; after acquiring a token it forwards the job, and on a
downstream error it calls `tryReturnToken` and propagates that error. -/
def Handle (l : MaxInFlight) (ctx : Ctx) (job : Job) (winner : RaceWinner)
    (handlerRes : Option GoError) : HandleResult :=
  match winner with
  | RaceWinner.ctxDone => ⟨l, some (GoError.ctxCause ctx.cause), false⟩
  | RaceWinner.staleCh => ⟨l, some GoError.errStaleJob, false⟩
  | RaceWinner.tokenBucket =>
    let acquired : MaxInFlight := { l with available := l.available - 1 }
    match handlerRes with
    | some err => ⟨tryReturnToken acquired, some err, true⟩
    | none => ⟨acquired, none, true⟩

/-- `OnAdd(obj, inInitialList)`: ignores payloads that are not
`*batchv1.Job` (embedded as `none`); ignores live (non-bootstrap) adds;
during the initial list, takes a token non-blockingly for a job that is not
yet finished. -/
def OnAdd (l : MaxInFlight) (obj : Option BatchJob) (inInitialList : Bool) :
    MaxInFlight :=
  match obj with
  | none => l
  | some job =>
    if !inInitialList then l
    else if !(JobFinished job) then tryTakeToken l
    else l

/-- `OnUpdate(prev, curr)`: ignores the event when either payload is not
`*batchv1.Job`; returns a token non-blockingly exactly when the job state
changed from not-finished to finished. -/
def OnUpdate (l : MaxInFlight) (prev curr : Option BatchJob) : MaxInFlight :=
  match prev, curr with
  | some prevState, some currState =>
    if !(JobFinished prevState) && JobFinished currState then tryReturnToken l
    else l
  | _, _ => l

/-- `OnDelete(obj)`: ignores the event when the payload is not
`*batchv1.Job`; returns a token non-blockingly when the last-known state
was not finished. -/
def OnDelete (l : MaxInFlight) (obj : Option BatchJob) : MaxInFlight :=
  match obj with
  | none => l
  | some prevState =>
    if !(JobFinished prevState) then tryReturnToken l
    else l

/-- The limiter states reachable from construction by any interleaving of
the pool operations: `Handle` calls (with a select winner that was ready),
and the reconciler callbacks `OnAdd`, `OnUpdate`, `OnDelete`. -/
inductive Reachable (cap : Int) : MaxInFlight → Prop where
  | init (l : MaxInFlight) : New cap = Except.ok l → Reachable cap l
  | handle (l : MaxInFlight) (ctx : Ctx) (job : Job) (w : RaceWinner)
      (res : Option GoError) : Reachable cap l →
      raceEnabled ctx job l w = true →
      Reachable cap (Handle l ctx job w res).state
  | onAdd (l : MaxInFlight) (obj : Option BatchJob) (b : Bool) :
      Reachable cap l → Reachable cap (OnAdd l obj b)
  | onUpdate (l : MaxInFlight) (p c : Option BatchJob) :
      Reachable cap l → Reachable cap (OnUpdate l p c)
  | onDelete (l : MaxInFlight) (o : Option BatchJob) :
      Reachable cap l → Reachable cap (OnDelete l o)

theorem tryReturnToken_available_le (l : MaxInFlight)
    (h : l.available ≤ l.maxInFlight) :
    (tryReturnToken l).available ≤ l.maxInFlight := by
  unfold tryReturnToken
  split <;> simp_all <;> omega

theorem tryReturnToken_maxInFlight (l : MaxInFlight) :
    (tryReturnToken l).maxInFlight = l.maxInFlight := by
  unfold tryReturnToken
  split <;> rfl

theorem tryTakeToken_available_le (l : MaxInFlight)
    (h : l.available ≤ l.maxInFlight) :
    (tryTakeToken l).available ≤ l.maxInFlight := by
  unfold tryTakeToken
  split <;> simp_all <;> omega

theorem tryTakeToken_maxInFlight (l : MaxInFlight) :
    (tryTakeToken l).maxInFlight = l.maxInFlight := by
  unfold tryTakeToken
  split <;> rfl

theorem tryReturnToken_full (l : MaxInFlight)
    (h : l.available = l.maxInFlight) :
    tryReturnToken l = l := by
  unfold tryReturnToken
  split <;> simp_all

/-- Claim C1: across every sequence of interleaved pool operations (blocking
acquisition in `Handle`, non-blocking take in `OnAdd`, non-blocking return in
`OnUpdate`, `OnDelete` and on downstream failure), the available-token count
stays between 0 and the capacity (it is a `Nat`, and the acquiring branch is
only enabled on a non-empty bucket, so it never goes below 0); and a
non-blocking return attempted when the count already equals capacity leaves
the state unchanged (a silent no-op). -/
theorem pool_available_bounded (cap : Int) (l : MaxInFlight)
    (h : Reachable cap l) :
    l.maxInFlight = cap.toNat ∧ l.available ≤ l.maxInFlight ∧
    (l.available = l.maxInFlight → tryReturnToken l = l) := by
  have key : l.maxInFlight = cap.toNat ∧ l.available ≤ l.maxInFlight := by
    induction h with
    | init l h0 =>
      unfold New at h0
      split at h0
      · cases h0
      · cases h0
        exact ⟨rfl, Nat.le_refl _⟩
    | handle l ctx job w res hr hen ih =>
      cases w with
      | ctxDone => exact ih
      | staleCh => exact ih
      | tokenBucket =>
        cases res with
        | none =>
          refine ⟨ih.1, ?_⟩
          have := ih.2
          simp only [Handle]
          omega
        | some e =>
          simp only [Handle]
          refine ⟨?_, ?_⟩
          · rw [tryReturnToken_maxInFlight]
            exact ih.1
          · rw [tryReturnToken_maxInFlight]
            exact tryReturnToken_available_le _
              (show l.available - 1 ≤ l.maxInFlight by have := ih.2; omega)
    | onAdd l obj b hr ih =>
      cases obj with
      | none => exact ih
      | some j =>
        simp only [OnAdd]
        split
        · exact ih
        · split
          · exact ⟨(tryTakeToken_maxInFlight l).trans ih.1,
              by rw [tryTakeToken_maxInFlight]; exact tryTakeToken_available_le _ ih.2⟩
          · exact ih
    | onUpdate l p c hr ih =>
      cases p with
      | none => exact ih
      | some pj =>
        cases c with
        | none => exact ih
        | some cj =>
          simp only [OnUpdate]
          split
          · exact ⟨(tryReturnToken_maxInFlight l).trans ih.1,
              by rw [tryReturnToken_maxInFlight]; exact tryReturnToken_available_le _ ih.2⟩
          · exact ih
    | onDelete l o hr ih =>
      cases o with
      | none => exact ih
      | some j =>
        simp only [OnDelete]
        split
        · exact ⟨(tryReturnToken_maxInFlight l).trans ih.1,
            by rw [tryReturnToken_maxInFlight]; exact tryReturnToken_available_le _ ih.2⟩
        · exact ih
  exact ⟨key.1, key.2, tryReturnToken_full l⟩

/-- Witness for C1: the state reached from `New 2` by a bootstrap `OnAdd` of
an unfinished job has its available count within bounds, and returning a
token to the full initial pool is a no-op. -/
theorem pool_available_bounded_witness :
    ({ maxInFlight := 2, available := 1 } : MaxInFlight).available ≤
      ({ maxInFlight := 2, available := 1 } : MaxInFlight).maxInFlight ∧
    tryReturnToken { maxInFlight := 2, available := 2 } =
      { maxInFlight := 2, available := 2 } := by
  have h0 : New 2 = Except.ok { maxInFlight := 2, available := 2 } := rfl
  have hr1 : Reachable 2 { maxInFlight := 2, available := 2 } :=
    Reachable.init _ h0
  have hr2 : Reachable 2 { maxInFlight := 2, available := 1 } := by
    have h1 := Reachable.onAdd _
      (some { name := "a", finished := false }) true hr1
    have he : OnAdd { maxInFlight := 2, available := 2 }
        (some { name := "a", finished := false }) true =
        { maxInFlight := 2, available := 1 } := by decide
    rw [he] at h1
    exact h1
  exact ⟨(pool_available_bounded 2 _ hr2).2.1,
    (pool_available_bounded 2 _ hr1).2.2 rfl⟩

/-- Claim C2: when context cancellation wins the three-way race before a
token is acquired, `Handle` returns the cancellation cause, leaves the
available-token count unchanged, and does not forward the job. -/
theorem handle_cancelled_no_token (l : MaxInFlight) (ctx : Ctx) (job : Job)
    (res : Option GoError) (hdone : ctx.done = true) :
    (Handle l ctx job RaceWinner.ctxDone res).result =
      some (GoError.ctxCause ctx.cause) ∧
    (Handle l ctx job RaceWinner.ctxDone res).state = l ∧
    (Handle l ctx job RaceWinner.ctxDone res).forwarded = false :=
  ⟨rfl, rfl, rfl⟩

/-- Witness for C2 at a concrete cancelled context. -/
theorem handle_cancelled_no_token_witness :
    (Handle { maxInFlight := 3, available := 3 } { done := true, cause := 7 }
        { uuid := "u", staleFired := false } RaceWinner.ctxDone none).state =
      { maxInFlight := 3, available := 3 } :=
  (handle_cancelled_no_token { maxInFlight := 3, available := 3 }
    { done := true, cause := 7 } { uuid := "u", staleFired := false }
    none rfl).2.1

/-- Claim C3: when the job staleness signal wins the three-way race before a
token is acquired, `Handle` returns `model.ErrStaleJob`, leaves the
available-token count unchanged, and does not forward the job. -/
theorem handle_stale_no_token (l : MaxInFlight) (ctx : Ctx) (job : Job)
    (res : Option GoError) (hstale : job.staleFired = true) :
    (Handle l ctx job RaceWinner.staleCh res).result =
      some GoError.errStaleJob ∧
    (Handle l ctx job RaceWinner.staleCh res).state = l ∧
    (Handle l ctx job RaceWinner.staleCh res).forwarded = false :=
  ⟨rfl, rfl, rfl⟩

/-- Witness for C3 at a concrete stale job. -/
theorem handle_stale_no_token_witness :
    (Handle { maxInFlight := 3, available := 0 } { done := false, cause := 0 }
        { uuid := "u", staleFired := true } RaceWinner.staleCh none).result =
      some GoError.errStaleJob :=
  (handle_stale_no_token { maxInFlight := 3, available := 0 }
    { done := false, cause := 0 } { uuid := "u", staleFired := true }
    none rfl).1

/-- Claim C4: after acquiring a token and forwarding the job, `Handle`
reacts to a downstream error by returning one token non-blockingly
(`tryReturnToken` on the post-acquisition state) and propagating the very
same error; on downstream success it returns success (nil error) and the
token stays consumed (the state keeps the decremented count, no release
within the call). -/
theorem handle_downstream_failure_release (l : MaxInFlight) (ctx : Ctx)
    (job : Job) (e : GoError) :
    Handle l ctx job RaceWinner.tokenBucket (some e) =
      ⟨tryReturnToken { l with available := l.available - 1 }, some e, true⟩ ∧
    Handle l ctx job RaceWinner.tokenBucket none =
      ⟨{ l with available := l.available - 1 }, none, true⟩ :=
  ⟨rfl, rfl⟩

/-- Claim C5: a bootstrap add of an unfinished job performs exactly a
non-blocking token take, which is a no-op on an empty pool; a bootstrap add
of a finished job and a live (non-bootstrap) add leave the state
unchanged. -/
theorem onAdd_bootstrap_take (l : MaxInFlight) (j : BatchJob) :
    (JobFinished j = false → OnAdd l (some j) true = tryTakeToken l) ∧
    (l.available = 0 → tryTakeToken l = l) ∧
    (JobFinished j = true → OnAdd l (some j) true = l) ∧
    OnAdd l (some j) false = l := by
  refine ⟨?_, ?_, ?_, ?_⟩
  · intro hf
    simp [OnAdd, hf]
  · intro h0
    simp [tryTakeToken, h0]
  · intro hf
    simp [OnAdd, hf]
  · simp [OnAdd]

/-- Witness for C5 at concrete unfinished/finished jobs and an empty pool. -/
theorem onAdd_bootstrap_take_witness :
    OnAdd { maxInFlight := 5, available := 5 }
        (some { name := "a", finished := false }) true =
      tryTakeToken { maxInFlight := 5, available := 5 } ∧
    tryTakeToken { maxInFlight := 5, available := 0 } =
      { maxInFlight := 5, available := 0 } ∧
    OnAdd { maxInFlight := 5, available := 5 }
        (some { name := "b", finished := true }) true =
      { maxInFlight := 5, available := 5 } :=
  ⟨(onAdd_bootstrap_take { maxInFlight := 5, available := 5 }
      { name := "a", finished := false }).1 rfl,
   (onAdd_bootstrap_take { maxInFlight := 5, available := 0 }
      { name := "a", finished := false }).2.1 rfl,
   (onAdd_bootstrap_take { maxInFlight := 5, available := 5 }
      { name := "b", finished := true }).2.2.1 rfl⟩

/-- Claim C6: an update event performs a non-blocking token return exactly
on a transition from not-finished to finished; whenever the previous state
is finished, or the current state is not finished, the state is
unchanged — which covers the finished-to-finished, not-finished-to-
not-finished and finished-to-not-finished combinations. -/
theorem onUpdate_release_iff_transition (l : MaxInFlight) (p c : BatchJob) :
    (JobFinished p = false → JobFinished c = true →
      OnUpdate l (some p) (some c) = tryReturnToken l) ∧
    (JobFinished p = true → OnUpdate l (some p) (some c) = l) ∧
    (JobFinished c = false → OnUpdate l (some p) (some c) = l) := by
  refine ⟨?_, ?_, ?_⟩
  · intro hp hc
    simp [OnUpdate, hp, hc]
  · intro hp
    simp [OnUpdate, hp]
  · intro hc
    simp [OnUpdate, hc]

/-- Witness for C6 at the four concrete finished-state combinations. -/
theorem onUpdate_release_iff_transition_witness :
    OnUpdate { maxInFlight := 3, available := 1 }
        (some { name := "p", finished := false })
        (some { name := "p", finished := true }) =
      tryReturnToken { maxInFlight := 3, available := 1 } ∧
    OnUpdate { maxInFlight := 3, available := 1 }
        (some { name := "p", finished := true })
        (some { name := "p", finished := true }) =
      { maxInFlight := 3, available := 1 } ∧
    OnUpdate { maxInFlight := 3, available := 1 }
        (some { name := "p", finished := false })
        (some { name := "p", finished := false }) =
      { maxInFlight := 3, available := 1 } :=
  ⟨(onUpdate_release_iff_transition { maxInFlight := 3, available := 1 }
      { name := "p", finished := false } { name := "p", finished := true }).1
      rfl rfl,
   (onUpdate_release_iff_transition { maxInFlight := 3, available := 1 }
      { name := "p", finished := true } { name := "p", finished := true }).2.1
      rfl,
   (onUpdate_release_iff_transition { maxInFlight := 3, available := 1 }
      { name := "p", finished := false } { name := "p", finished := false }).2.2
      rfl⟩

/-- Claim C7: a delete event performs a non-blocking token return exactly
when the last-known state is not finished; a delete of an already-finished
resource leaves the state unchanged (no second release). -/
theorem onDelete_release_iff_unfinished (l : MaxInFlight) (j : BatchJob) :
    (JobFinished j = false → OnDelete l (some j) = tryReturnToken l) ∧
    (JobFinished j = true → OnDelete l (some j) = l) := by
  constructor
  · intro hf
    simp [OnDelete, hf]
  · intro hf
    simp [OnDelete, hf]

/-- Witness for C7 at concrete unfinished and finished last-known states. -/
theorem onDelete_release_iff_unfinished_witness :
    OnDelete { maxInFlight := 4, available := 2 }
        (some { name := "d", finished := false }) =
      tryReturnToken { maxInFlight := 4, available := 2 } ∧
    OnDelete { maxInFlight := 4, available := 2 }
        (some { name := "d", finished := true }) =
      { maxInFlight := 4, available := 2 } :=
  ⟨(onDelete_release_iff_unfinished { maxInFlight := 4, available := 2 }
      { name := "d", finished := false }).1 rfl,
   (onDelete_release_iff_unfinished { maxInFlight := 4, available := 2 }
      { name := "d", finished := true }).2 rfl⟩

/-- Claim C8: constructing the limiter with capacity at most 0 fails fatally
(the Go code panics, embedded as `Except.error` with the panic message);
constructing with any capacity C at least 1 yields a pool whose capacity and
available-token count both equal C before any operation runs. -/
theorem new_capacity_semantics (m : Int) (C : Nat) :
    (m ≤ 0 →
      New m = Except.error ("maxInFlight <= 0 (got " ++ toString m ++ ")")) ∧
    (1 ≤ C →
      New (C : Int) = Except.ok { maxInFlight := C, available := C }) := by
  constructor
  · intro h
    unfold New
    simp [h]
  · intro h
    unfold New
    split
    · next hc => exact absurd hc (by omega)
    · simp

/-- Witness for C8 at capacities 0 and 3. -/
theorem new_capacity_semantics_witness :
    New 0 = Except.error ("maxInFlight <= 0 (got " ++ toString (0 : Int) ++ ")") ∧
    New ((3 : Nat) : Int) = Except.ok { maxInFlight := 3, available := 3 } :=
  ⟨(new_capacity_semantics 0 3).1 (by decide),
   (new_capacity_semantics 0 3).2 (by decide)⟩

/-- Claim C9: every event whose payload fails the `*batchv1.Job` type
assertion is ignored: the handler returns (without error — the callbacks
cannot fail) and the state, hence the available-token count, is unchanged;
for updates it suffices that either payload is uninterpretable. -/
theorem malformed_events_ignored (l : MaxInFlight) (b : Bool)
    (p c : Option BatchJob) :
    OnAdd l none b = l ∧ OnUpdate l none c = l ∧ OnUpdate l p none = l ∧
    OnDelete l none = l := by
  refine ⟨rfl, ?_, ?_, rfl⟩
  · cases c <;> rfl
  · cases p <;> rfl

/-- Claim C10: once the token-acquisition branch wins the race, the
staleness signal no longer affects the call — two jobs differing only in
their staleness state produce identical outcomes, the job is always
forwarded to the next handler, and `Handle` itself never produces the
stale-job error after acquisition: whenever a `Handle` call returns
`model.ErrStaleJob`, either the stale branch won the race before any token
was consumed, or the value was returned by the downstream handler. -/
theorem handle_stale_only_before_acquisition (l : MaxInFlight) (ctx : Ctx)
    (j1 j2 : Job) (res : Option GoError) :
    Handle l ctx j1 RaceWinner.tokenBucket res =
      Handle l ctx j2 RaceWinner.tokenBucket res ∧
    (Handle l ctx j1 RaceWinner.tokenBucket res).forwarded = true ∧
    (res ≠ some GoError.errStaleJob →
      (Handle l ctx j1 RaceWinner.tokenBucket res).result ≠
        some GoError.errStaleJob) ∧
    (∀ w : RaceWinner,
      (Handle l ctx j1 w res).result = some GoError.errStaleJob →
      w = RaceWinner.staleCh ∨ res = some GoError.errStaleJob) := by
  refine ⟨?_, ?_, ?_, ?_⟩
  · cases res <;> rfl
  · cases res <;> rfl
  · intro hne
    cases res with
    | none => simp [Handle]
    | some e => simpa [Handle] using hne
  · intro w hw
    cases w with
    | ctxDone => simp [Handle] at hw
    | staleCh => exact Or.inl rfl
    | tokenBucket =>
      cases res with
      | none => simp [Handle] at hw
      | some e =>
        right
        simp [Handle] at hw
        rw [hw]

/-- Witness for C10: a successful post-acquisition call never yields the
stale-job error, and a stale-job result does pin the winner to the stale
branch. -/
theorem handle_stale_only_before_acquisition_witness :
    (Handle { maxInFlight := 4, available := 2 } { done := false, cause := 0 }
        { uuid := "a", staleFired := true } RaceWinner.tokenBucket none).result ≠
      some GoError.errStaleJob ∧
    (RaceWinner.staleCh = RaceWinner.staleCh ∨
      (none : Option GoError) = some GoError.errStaleJob) :=
  ⟨(handle_stale_only_before_acquisition { maxInFlight := 4, available := 2 }
      { done := false, cause := 0 } { uuid := "a", staleFired := true }
      { uuid := "a", staleFired := false } none).2.2.1 (by decide),
   (handle_stale_only_before_acquisition { maxInFlight := 4, available := 2 }
      { done := false, cause := 0 } { uuid := "a", staleFired := true }
      { uuid := "a", staleFired := false } none).2.2.2 RaceWinner.staleCh rfl⟩

end Limiter
